import Mathlib

/-!
Verification of the Solidity source-map / trace-annotation core of the
repository (files `src/core/sourcemap.py`, `src/core/sourcemap_parser.py`,
`legacy/enhance_trace_with_sourcemap.py`), as a shallow embedding in Lean.

Python strings are modelled as Lean `String`s (one `Char` per Python code
point); Python `list`s as Lean `List`s; Python `dict`s used as tables as
association lists; functions that may raise an exception return `Except`.
A handful of helpers reproduce the relevant Python primitive semantics
(`str.split` on a one-character separator, `str.strip`, `int(...)`,
slicing with negative indices, `list[i]` with negative wrap-around).
-/

/-- Python `str.isspace`-style test for the ASCII whitespace characters
removed by `str.strip()`.  (Python also strips some Unicode whitespace;
no input in this development contains any.) -/
def pyIsSpace (c : Char) : Bool :=
  c == ' ' || c == '\t' || c == '\n' || c == '\r' || c == '\x0b' || c == '\x0c'

/-- Python `s.strip()` on a list of characters. -/
def pyStripChars (l : List Char) : List Char :=
  ((l.dropWhile pyIsSpace).reverse.dropWhile pyIsSpace).reverse

/-- Python `s.strip()` on a `String` (used for `snippet.strip()`). -/
def pyStrip (s : String) : String :=
  String.mk (pyStripChars s.toList)

/-- Python `s.split(sep)` for a one-character separator `sep`:
always returns at least one (possibly empty) segment, and an empty
segment between two adjacent separators. -/
def splitOnChar (sep : Char) : List Char → List (List Char)
  | [] => [[]]
  | c :: rest =>
    match splitOnChar sep rest with
    | [] => [[c]]
    | h :: t => if c = sep then [] :: h :: t else (c :: h) :: t

/-- Value of a list of decimal digit characters. -/
def digitsToNat (l : List Char) : Nat :=
  l.foldl (fun acc c => acc * 10 + (c.toNat - '0'.toNat)) 0

/-- Parse a non-empty all-digit character list, else `none`. -/
def pyIntCore (ds : List Char) : Option Nat :=
  if ds ≠ [] ∧ ds.all (fun c => c.isDigit) then some (digitsToNat ds) else none

/-- Python `int(s)`: strips surrounding whitespace, accepts an optional
sign followed by decimal digits; `none` models a raised `ValueError`.
(Python additionally accepts underscore digit grouping and non-ASCII
decimal digits; no source-map field in this development uses either.) -/
def pyInt (l : List Char) : Option Int :=
  match pyStripChars l with
  | '-' :: ds => (pyIntCore ds).map (fun n => -(n : Int))
  | '+' :: ds => (pyIntCore ds).map (fun n => (n : Int))
  | ds => (pyIntCore ds).map (fun n => (n : Int))

/-- One resolved entry of `sourcemap.py`'s `parse_source_map` output:
the dict `{'start','length','file','jump','modifier'}`. -/
structure MapEntry where
  start : Int
  length : Int
  file : Int
  jump : String
  modifier : String
deriving DecidableEq

/-- Shared helper for the field-update pattern of both decoders:
`if len(parts) > k and parts[k]: prev = int(parts[k])`, with the
`int` conversion propagating a `ValueError` on malformed text. -/
def updInt (fld : List Char) (prev : Int) : Except String Int :=
  if fld = [] then .ok prev
  else
    match pyInt fld with
    | some v => .ok v
    | none => .error ("invalid literal for int: " ++ String.mk fld)

/-- Loop body of `parse_source_map` (src/core/sourcemap.py:30-70),
threading the previous values of the five delta-compressed fields. -/
def parse_source_map_go :
    List (List Char) → Int → Int → Int → String → String →
    Except String (List MapEntry)
  | [], _, _, _, _, _ => .ok []
  | seg :: rest, pS, pL, pF, pJ, pM =>
    if pyStripChars seg = [] then do
      let restL ← parse_source_map_go rest pS pL pF pJ pM
      return ⟨pS, pL, pF, pJ, pM⟩ :: restL
    else do
      let parts := splitOnChar ':' seg
      let s ← updInt (parts.getD 0 []) pS
      let l ← updInt (parts.getD 1 []) pL
      let f ← updInt (parts.getD 2 []) pF
      let j := if parts.getD 3 [] ≠ [] then String.mk (parts.getD 3 []) else pJ
      let m := if parts.getD 4 [] ≠ [] then String.mk (parts.getD 4 []) else pM
      let restL ← parse_source_map_go rest s l f j m
      return ⟨s, l, f, j, m⟩ :: restL

/-- Embedding of `parse_source_map` (src/core/sourcemap.py:15-72,
identical in legacy/enhance_trace_with_sourcemap.py:22-79): empty or
`"null"` input short-circuits to the empty list, otherwise the string is
split on `;` and decoded with delta inheritance, starting from previous
values `0,0,0,"-",""`. -/
def parse_source_map (s : String) : Except String (List MapEntry) :=
  if s = "" ∨ s = "null" then .ok []
  else parse_source_map_go (splitOnChar ';' s.toList) 0 0 0 "-" ""

/-- One entry of `SourcemapParser.parse_sourcemap_string` output
(src/core/sourcemap_parser.py:41-77): the dict with keys
`instruction_index, offset, length, file_index, jump_type`. -/
structure SegInstr where
  instruction_index : Nat
  offset : Int
  length : Int
  file_index : Int
  jump_type : String
deriving DecidableEq

/-- Loop body of `parse_sourcemap_string`
(src/core/sourcemap_parser.py:38-79); `i` is the enumeration index. -/
def parse_sourcemap_go :
    List (List Char) → Nat → Int → Int → Int → String →
    Except String (List SegInstr)
  | [], _, _, _, _, _ => .ok []
  | seg :: rest, i, pO, pL, pF, pJ =>
    if pyStripChars seg = [] then do
      let restL ← parse_sourcemap_go rest (i + 1) pO pL pF pJ
      return ⟨i, pO, pL, pF, pJ⟩ :: restL
    else do
      let parts := splitOnChar ':' seg
      let o ← updInt (parts.getD 0 []) pO
      let l ← updInt (parts.getD 1 []) pL
      let f ← updInt (parts.getD 2 []) pF
      let j := if parts.getD 3 [] ≠ [] then String.mk (parts.getD 3 []) else pJ
      let restL ← parse_sourcemap_go rest (i + 1) o l f j
      return ⟨i, o, l, f, j⟩ :: restL

/-- Embedding of `SourcemapParser.parse_sourcemap_string`
(src/core/sourcemap_parser.py:19-81).  Note: unlike `parse_source_map`
it has no special case for an empty or `"null"` source map. -/
def parse_sourcemap_string (s : String) : Except String (List SegInstr) :=
  parse_sourcemap_go (splitOnChar ';' s.toList) 0 0 0 0 "-"

/-- C3 counterexample: `parse_sourcemap_string` (one of the two decoders
the claim covers) does not treat `""`/`"null"` as a zero-result case: on
the empty string it yields one default-valued instruction (not zero
entries), and on `"null"` it raises a `ValueError` from `int("null")`. -/
theorem c3_empty_null_cex :
    parse_sourcemap_string "" = .ok [⟨0, 0, 0, 0, "-"⟩] ∧
    parse_sourcemap_string "null" = .error "invalid literal for int: null" := by
  constructor <;> rfl

/-- C3 amended: only `parse_source_map` (src/core/sourcemap.py) maps the
empty string and the `"null"` sentinel to an empty sequence without
error; `parse_sourcemap_string` (src/core/sourcemap_parser.py) instead
returns a single inherited-default instruction for `""` and fails
integer parsing on `"null"`. -/
theorem c3_empty_null_amended :
    parse_source_map "" = .ok [] ∧
    parse_source_map "null" = .ok [] ∧
    parse_sourcemap_string "" = .ok [⟨0, 0, 0, 0, "-"⟩] ∧
    parse_sourcemap_string "null" = .error "invalid literal for int: null" := by
  refine ⟨rfl, rfl, rfl, rfl⟩

/-- C7: decoding `"10:5:0:-:0;;;20:3:1:i:1"` yields four resolved
instructions with dense indices 0..3, entries 1 and 2 inheriting every
field of entry 0 (start 10, length 5, file 0, jump `-`), and entry 3
overriding all fields (start 20, length 3, file 1, jump `i`); the same
holds for the `parse_source_map` variant (which also resolves the fifth,
modifier field). -/
theorem c7_inheritance_roundtrip :
    parse_sourcemap_string "10:5:0:-:0;;;20:3:1:i:1" =
      .ok [⟨0, 10, 5, 0, "-"⟩, ⟨1, 10, 5, 0, "-"⟩, ⟨2, 10, 5, 0, "-"⟩,
           ⟨3, 20, 3, 1, "i"⟩] ∧
    parse_source_map "10:5:0:-:0;;;20:3:1:i:1" =
      .ok [⟨10, 5, 0, "-", "0"⟩, ⟨10, 5, 0, "-", "0"⟩, ⟨10, 5, 0, "-", "0"⟩,
           ⟨20, 3, 1, "i", "1"⟩] := by
  constructor <;> rfl

/-- Hex value of a character, matching `bytes.fromhex` digit handling. -/
def hexVal (c : Char) : Option Nat :=
  if '0' ≤ c ∧ c ≤ '9' then some (c.toNat - '0'.toNat)
  else if 'a' ≤ c ∧ c ≤ 'f' then some (c.toNat - 'a'.toNat + 10)
  else if 'A' ≤ c ∧ c ≤ 'F' then some (c.toNat - 'A'.toNat + 10)
  else none

/-- Python `bytes.fromhex`: runs of ASCII whitespace are skipped before
each byte pair (and before the end of the string), then each byte is
exactly two hex digits with no whitespace between them — so `"60 01"`
decodes to `[0x60, 0x01]` while `"6 001"` fails.  A lone trailing hex
digit or any other non-hex character raises `ValueError`, modelled as
`none`.  (CPython also raises `ValueError` when the string contains a
non-ASCII character; such a character is likewise rejected here, as a
non-hex digit.) -/
def bytes_fromhex : List Char → Option (List Nat)
  | [] => some []
  | c1 :: rest =>
    if pyIsSpace c1 then bytes_fromhex rest
    else
      match rest with
      | [] => none
      | c2 :: rest2 => do
        let v1 ← hexVal c1
        let v2 ← hexVal c2
        let bs ← bytes_fromhex rest2
        return (16 * v1 + v2) :: bs

/-- Strips the optional `0x` prefix of a bytecode string
(`if bytecode.startswith('0x'): bytecode = bytecode[2:]`). -/
def stripHex : List Char → List Char
  | '0' :: 'x' :: rest => rest
  | l => l

/-- Operand size of an opcode: the `push_sizes` table of
src/core/sourcemap_parser.py:129 maps each opcode in `0x60..0x7f`
(PUSH1..PUSH32) to `opcode - 0x5f` additional bytes; every other opcode
advances the program counter by exactly one byte. -/
def operandLength (op : Nat) : Nat :=
  if 0x60 ≤ op ∧ op ≤ 0x7f then op - 0x5f else 0

/-- One value of the `pc_mapping` dict built by `calculate_pc_mapping`:
a copy of the source-map instruction plus its `pc` and raw opcode byte
(the Python dict stores the opcode rendered as `f"0x{opcode:02x}"`;
the byte value is kept here and rendered on use). -/
structure PcEntryData where
  instruction_index : Nat
  offset : Int
  length : Int
  file_index : Int
  jump_type : String
  pc : Nat
  opcode : Nat
deriving DecidableEq

/-- The `while pc < len(bytecode_bytes) and instruction_index <
len(instructions)` loop of `calculate_pc_mapping`
(src/core/sourcemap_parser.py:131-149), in emission order (the Python
dict keys are the strictly increasing `pc` values, so insertion order
determines the dict completely). -/
def pcLoop (bs : List Nat) : Nat → List SegInstr → List PcEntryData
  | _, [] => []
  | pc, s :: rest =>
    if h : pc < bs.length then
      let op := bs.get ⟨pc, h⟩
      ⟨s.instruction_index, s.offset, s.length, s.file_index, s.jump_type,
        pc, op⟩ :: pcLoop bs (pc + 1 + operandLength op) rest
    else []

/-- Embedding of `SourcemapParser.calculate_pc_mapping`
(src/core/sourcemap_parser.py:103-151).  A bytecode shorter than two
characters returns the empty mapping; a failed hex decode is caught
(`except ValueError`), a warning is printed, and the empty mapping is
returned — no error reaches the caller. -/
def calculate_pc_mapping (bytecode : String) (instructions : List SegInstr) :
    List PcEntryData :=
  if bytecode.toList.length < 2 then []
  else
    match bytes_fromhex (stripHex bytecode.toList) with
    | none => []
    | some bs => pcLoop bs 0 instructions

/-- C2 counterexample, refuting both halves of the claim.  First:
`"0x123"` has an odd number of hex digits after prefix stripping, so the
decode fails — yet the scan succeeds and returns the empty mapping to
its caller instead of surfacing a typed error (the `ValueError` is
caught and only a warning is printed).  Second: the claimed failure
condition is also wrong — `"0x60 01"` contains a non-hex character (a
space) and its payload has odd length, but `bytes.fromhex` skips ASCII
whitespace between byte pairs, so the scan succeeds with a non-empty
mapping and raises nothing. -/
theorem c2_malformed_swallowed_cex :
    (bytes_fromhex (stripHex "0x123".toList) = none ∧
      calculate_pc_mapping "0x123" [⟨0, 0, 0, 0, "-"⟩] = []) ∧
    (bytes_fromhex (stripHex "0x60 01".toList) = some [96, 1] ∧
      calculate_pc_mapping "0x60 01" [⟨0, 0, 0, 0, "-"⟩] =
        [⟨0, 0, 0, 0, "-", 0, 96⟩]) := by
  exact ⟨⟨rfl, rfl⟩, ⟨rfl, rfl⟩⟩

/-- C2 amended: for every bytecode whose payload after `0x`-stripping
fails Python's hex decode — an odd number of hex digits after
whitespace skipping, or a non-hex character other than ASCII whitespace
between byte pairs — the scan catches the failure internally and
returns an empty mapping; no typed error is surfaced to the caller. -/
theorem c2_malformed_empty_result (bytecode : String)
    (instructions : List SegInstr)
    (h : bytes_fromhex (stripHex bytecode.toList) = none) :
    calculate_pc_mapping bytecode instructions = [] := by
  unfold calculate_pc_mapping
  split
  · rfl
  · rw [h]

/-- C2 amended, witness at the concrete malformed bytecode `"0x123"`. -/
theorem c2_malformed_empty_result_witness :
    calculate_pc_mapping "0x123" [⟨0, 0, 0, 0, "-"⟩] = [] :=
  c2_malformed_empty_result "0x123" [⟨0, 0, 0, 0, "-"⟩] rfl

/-- Modelled from the spec: the standalone `BytecodeScanner` of spec
section 4.2 does not exist as a separate function in the source (the
scan is fused into `calculate_pc_mapping`); this definition replays the
same cursor advance rule unbounded by the source-map length, yielding
the sequence of instruction-start PCs used to state join correctness. -/
def scanPCs (bs : List Nat) (pc : Nat) : List Nat :=
  if h : pc < bs.length then
    pc :: scanPCs bs (pc + 1 + operandLength (bs.get ⟨pc, h⟩))
  else []
termination_by bs.length - pc
decreasing_by simp_wf; omega

theorem scanPCs_pos (bs : List Nat) (pc : Nat) (h : pc < bs.length) :
    scanPCs bs pc = pc :: scanPCs bs (pc + 1 + operandLength (bs.get ⟨pc, h⟩)) := by
  rw [scanPCs]
  simp [h]

theorem scanPCs_neg (bs : List Nat) (pc : Nat) (h : ¬ pc < bs.length) :
    scanPCs bs pc = [] := by
  rw [scanPCs]
  simp [h]

theorem scanPCs_ge_aux (bs : List Nat) :
    ∀ n pc, bs.length - pc ≤ n → ∀ q ∈ scanPCs bs pc, pc ≤ q := by
  intro n
  induction n with
  | zero =>
    intro pc hn q hq
    rw [scanPCs_neg bs pc (by omega)] at hq
    simp at hq
  | succ n ih =>
    intro pc hn q hq
    by_cases h : pc < bs.length
    · rw [scanPCs_pos bs pc h] at hq
      rcases List.mem_cons.mp hq with rfl | hmem
      · exact le_refl q
      · have := ih (pc + 1 + operandLength (bs.get ⟨pc, h⟩)) (by omega) q hmem
        omega
    · rw [scanPCs_neg bs pc h] at hq
      simp at hq

theorem scanPCs_ge (bs : List Nat) (pc : Nat) :
    ∀ q ∈ scanPCs bs pc, pc ≤ q :=
  scanPCs_ge_aux bs (bs.length - pc) pc (le_refl _)

theorem scanPCs_sorted_aux (bs : List Nat) :
    ∀ n pc, bs.length - pc ≤ n → (scanPCs bs pc).Sorted (· < ·) := by
  intro n
  induction n with
  | zero =>
    intro pc hn
    rw [scanPCs_neg bs pc (by omega)]
    exact List.sorted_nil
  | succ n ih =>
    intro pc hn
    by_cases h : pc < bs.length
    · rw [scanPCs_pos bs pc h]
      refine List.sorted_cons.mpr ⟨?_, ih _ (by omega)⟩
      intro b hb
      have := scanPCs_ge bs _ b hb
      omega
    · rw [scanPCs_neg bs pc h]
      exact List.sorted_nil

theorem scanPCs_sorted (bs : List Nat) (pc : Nat) :
    (scanPCs bs pc).Sorted (· < ·) :=
  scanPCs_sorted_aux bs (bs.length - pc) pc (le_refl _)

theorem pcLoop_map_pc (bs : List Nat) :
    ∀ (instrs : List SegInstr) (pc : Nat),
      (pcLoop bs pc instrs).map (fun e => e.pc) =
        (scanPCs bs pc).take instrs.length := by
  intro instrs
  induction instrs with
  | nil => intro pc; simp [pcLoop]
  | cons s rest ih =>
    intro pc
    by_cases h : pc < bs.length
    · rw [scanPCs_pos bs pc h]
      simp only [pcLoop, dif_pos h, List.map_cons, List.length_cons,
        List.take_succ_cons, List.cons.injEq, true_and]
      exact ih _
    · rw [scanPCs_neg bs pc h]
      simp [pcLoop, dif_neg h]

theorem pcLoop_length (bs : List Nat) (instrs : List SegInstr) (pc : Nat) :
    (pcLoop bs pc instrs).length =
      min instrs.length (scanPCs bs pc).length := by
  have h := congrArg List.length (pcLoop_map_pc bs instrs pc)
  simpa [List.length_take] using h

theorem pcLoop_idx (bs : List Nat) :
    ∀ (instrs : List SegInstr) (pc : Nat) (i : Nat) (e : PcEntryData),
      (pcLoop bs pc instrs)[i]? = some e →
      (scanPCs bs pc)[i]? = some e.pc ∧
        ∃ s, instrs[i]? = some s ∧
          e.instruction_index = s.instruction_index ∧ e.offset = s.offset ∧
          e.length = s.length ∧ e.file_index = s.file_index ∧
          e.jump_type = s.jump_type := by
  intro instrs
  induction instrs with
  | nil => intro pc i e he; simp [pcLoop] at he
  | cons s rest ih =>
    intro pc i e he
    by_cases h : pc < bs.length
    · rw [scanPCs_pos bs pc h]
      simp only [pcLoop, dif_pos h] at he
      match i with
      | 0 =>
        simp only [List.getElem?_cons_zero, Option.some.injEq] at he
        subst he
        exact ⟨by simp, s, by simp, rfl, rfl, rfl, rfl, rfl⟩
      | i + 1 =>
        simp only [List.getElem?_cons_succ] at he ⊢
        exact ih _ i e he
    · simp [pcLoop, dif_neg h] at he

theorem pcLoop_head_pc (bs : List Nat) (pc : Nat) (instrs : List SegInstr)
    (e : PcEntryData) (he : (pcLoop bs pc instrs)[0]? = some e) : e.pc = pc := by
  cases instrs with
  | nil => simp [pcLoop] at he
  | cons s rest =>
    by_cases h : pc < bs.length
    · simp only [pcLoop, dif_pos h, List.getElem?_cons_zero,
        Option.some.injEq] at he
      rw [← he]
    · simp [pcLoop, dif_neg h] at he

theorem pcLoop_past_end (bs : List Nat) (pc : Nat) (rest : List SegInstr)
    (h : bs.length ≤ pc) : pcLoop bs pc rest = [] := by
  cases rest with
  | nil => rfl
  | cons s r =>
    have hn : ¬ pc < bs.length := by omega
    simp [pcLoop, hn]

theorem pcLoop_step (bs : List Nat) :
    ∀ (instrs : List SegInstr) (pc i : Nat) (a b : PcEntryData),
      (pcLoop bs pc instrs)[i]? = some a →
      (pcLoop bs pc instrs)[i + 1]? = some b →
      b.pc = a.pc + 1 + operandLength a.opcode := by
  intro instrs
  induction instrs with
  | nil => intro pc i a b ha _; simp [pcLoop] at ha
  | cons s rest ih =>
    intro pc i a b ha hb
    by_cases h : pc < bs.length
    · simp only [pcLoop, dif_pos h] at ha hb
      match i with
      | 0 =>
        simp only [List.getElem?_cons_zero, Option.some.injEq] at ha
        simp only [List.getElem?_cons_succ] at hb
        subst ha
        have hpc := pcLoop_head_pc bs _ rest b hb
        simpa using hpc
      | i + 1 =>
        simp only [List.getElem?_cons_succ] at ha hb
        exact ih _ i a b ha hb
    · simp [pcLoop, dif_neg h] at ha

theorem calculate_cases (bytecode : String) (instrs : List SegInstr) :
    calculate_pc_mapping bytecode instrs = [] ∨
    ∃ bs, bytes_fromhex (stripHex bytecode.toList) = some bs ∧
      calculate_pc_mapping bytecode instrs = pcLoop bs 0 instrs := by
  unfold calculate_pc_mapping
  split
  · exact Or.inl rfl
  · split
    next => exact Or.inl rfl
    next bs heq => exact Or.inr ⟨bs, heq, rfl⟩

/-- C4: the scan always emits strictly increasing pc values, and each
consecutive pair satisfies `pc[i+1] = pc[i] + 1 + operandLength[i]`,
where the operand length is `opcode - 0x5f` for the push range
`0x60..0x7f` and `0` otherwise. -/
theorem c4_pc_monotonicity (bytecode : String) (instrs : List SegInstr)
    (i : Nat) (a b : PcEntryData)
    (ha : (calculate_pc_mapping bytecode instrs)[i]? = some a)
    (hb : (calculate_pc_mapping bytecode instrs)[i + 1]? = some b) :
    b.pc = a.pc + 1 + operandLength a.opcode ∧ a.pc < b.pc := by
  rcases calculate_cases bytecode instrs with hc | ⟨bs, _, hc⟩
  · rw [hc] at ha; simp at ha
  · rw [hc] at ha hb
    have hstep := pcLoop_step bs instrs 0 i a b ha hb
    exact ⟨hstep, by omega⟩

/-- Three-instruction source map used for concrete witnesses. -/
def demoSegs : List SegInstr :=
  [⟨0, 0, 2, 0, "-"⟩, ⟨1, 2, 2, 0, "-"⟩, ⟨2, 4, 1, 0, "-"⟩]

/-- C4, witness at bytecode `"6001600202"` and index 0. -/
theorem c4_pc_monotonicity_witness :
    (⟨1, 2, 2, 0, "-", 2, 96⟩ : PcEntryData).pc =
      (⟨0, 0, 2, 0, "-", 0, 96⟩ : PcEntryData).pc + 1 +
        operandLength (⟨0, 0, 2, 0, "-", 0, 96⟩ : PcEntryData).opcode ∧
    (⟨0, 0, 2, 0, "-", 0, 96⟩ : PcEntryData).pc <
      (⟨1, 2, 2, 0, "-", 2, 96⟩ : PcEntryData).pc :=
  c4_pc_monotonicity "6001600202" demoSegs 0
    ⟨0, 0, 2, 0, "-", 0, 96⟩ ⟨1, 2, 2, 0, "-", 2, 96⟩ rfl rfl

/-- C6: scanning `"6001600202"` (PUSH1 0x01, PUSH1 0x02, MUL) against at
least three decoded source-map instructions records exactly three
instructions, at PCs 0, 2 and 4. -/
theorem c6_push_sizing (instrs : List SegInstr) (h : 3 ≤ instrs.length) :
    (calculate_pc_mapping "6001600202" instrs).map (fun e => e.pc) =
      [0, 2, 4] := by
  rcases instrs with _ | ⟨s0, _ | ⟨s1, _ | ⟨s2, rest⟩⟩⟩
  · simp at h
  · simp at h
  · simp at h
  · have heq : calculate_pc_mapping "6001600202" (s0 :: s1 :: s2 :: rest) =
        ⟨s0.instruction_index, s0.offset, s0.length, s0.file_index,
          s0.jump_type, 0, 96⟩ ::
        ⟨s1.instruction_index, s1.offset, s1.length, s1.file_index,
          s1.jump_type, 2, 96⟩ ::
        ⟨s2.instruction_index, s2.offset, s2.length, s2.file_index,
          s2.jump_type, 4, 2⟩ ::
        pcLoop [96, 1, 96, 2, 2] 5 rest := rfl
    rw [heq, pcLoop_past_end [96, 1, 96, 2, 2] 5 rest (by simp)]
    rfl

/-- C6, witness at a concrete three-entry source map. -/
theorem c6_push_sizing_witness :
    (calculate_pc_mapping "6001600202" demoSegs).map (fun e => e.pc) =
      [0, 2, 4] :=
  c6_push_sizing demoSegs (by decide)

/-- C5: whenever the bytecode hex decodes to the byte list `bs`, the
built PC index has exactly `min m n` entries for `m` decoded source-map
instructions and `n` scanned bytecode instructions, its keys are exactly
the first `min m n` instruction-start PCs (each occurring once), and the
entry at position `i` joins the resolved instruction at the same
instruction index `i`. -/
theorem c5_join_correctness (bytecode : String) (instrs : List SegInstr)
    (bs : List Nat)
    (hbs : bytes_fromhex (stripHex bytecode.toList) = some bs) :
    (calculate_pc_mapping bytecode instrs).length =
      min instrs.length (scanPCs bs 0).length ∧
    (calculate_pc_mapping bytecode instrs).map (fun e => e.pc) =
      (scanPCs bs 0).take instrs.length ∧
    ((calculate_pc_mapping bytecode instrs).map (fun e => e.pc)).Nodup ∧
    ∀ (i : Nat) (e : PcEntryData),
      (calculate_pc_mapping bytecode instrs)[i]? = some e →
      (scanPCs bs 0)[i]? = some e.pc ∧
      ∃ s, instrs[i]? = some s ∧
        e.instruction_index = s.instruction_index ∧ e.offset = s.offset ∧
        e.length = s.length ∧ e.file_index = s.file_index ∧
        e.jump_type = s.jump_type := by
  have hnd : ((scanPCs bs 0).take instrs.length).Nodup := by
    have hs : ((scanPCs bs 0).take instrs.length).Sorted (· < ·) :=
      List.Pairwise.sublist (List.take_sublist _ _) (scanPCs_sorted bs 0)
    exact hs.nodup
  by_cases h2 : bytecode.toList.length < 2
  · have hempty : calculate_pc_mapping bytecode instrs = [] := by
      unfold calculate_pc_mapping
      rw [if_pos h2]
    have hbsnil : bs = [] := by
      rcases hl : bytecode.toList with _ | ⟨c, _ | ⟨c2, tl⟩⟩
      · rw [hl] at hbs
        simpa [stripHex, bytes_fromhex] using hbs.symm
      · rw [hl] at hbs
        by_cases hsp : pyIsSpace c = true
        · simp [stripHex, bytes_fromhex, hsp] at hbs
          exact hbs
        · simp [stripHex, bytes_fromhex, hsp] at hbs
      · rw [hl] at h2
        simp only [List.length_cons] at h2
        omega
    subst hbsnil
    rw [scanPCs_neg [] 0 (by simp)]
    simp [hempty]
  · have hcalc : calculate_pc_mapping bytecode instrs = pcLoop bs 0 instrs := by
      unfold calculate_pc_mapping
      rw [if_neg h2, hbs]
    rw [hcalc]
    refine ⟨pcLoop_length bs instrs 0, pcLoop_map_pc bs instrs 0, ?_, ?_⟩
    · rw [pcLoop_map_pc bs instrs 0]
      exact hnd
    · intro i e he
      exact pcLoop_idx bs instrs 0 i e he

/-- C5, witness at bytecode `"6001600202"` with a three-entry map. -/
theorem c5_join_correctness_witness :
    (calculate_pc_mapping "6001600202" demoSegs).length =
      min demoSegs.length (scanPCs [96, 1, 96, 2, 2] 0).length ∧
    ((calculate_pc_mapping "6001600202" demoSegs).map (fun e => e.pc)).Nodup ∧
    (scanPCs [96, 1, 96, 2, 2] 0)[0]? =
      some ((⟨0, 0, 2, 0, "-", 0, 96⟩ : PcEntryData).pc) ∧
    ∃ s, demoSegs[0]? = some s ∧
      (⟨0, 0, 2, 0, "-", 0, 96⟩ : PcEntryData).instruction_index =
        s.instruction_index ∧
      (⟨0, 0, 2, 0, "-", 0, 96⟩ : PcEntryData).offset = s.offset ∧
      (⟨0, 0, 2, 0, "-", 0, 96⟩ : PcEntryData).length = s.length ∧
      (⟨0, 0, 2, 0, "-", 0, 96⟩ : PcEntryData).file_index = s.file_index ∧
      (⟨0, 0, 2, 0, "-", 0, 96⟩ : PcEntryData).jump_type = s.jump_type := by
  have h := c5_join_correctness "6001600202" demoSegs [96, 1, 96, 2, 2] rfl
  have hidx := h.2.2.2 0 ⟨0, 0, 2, 0, "-", 0, 96⟩ rfl
  exact ⟨h.1, h.2.2.1, hidx.1, hidx.2⟩

/-- Resolve one Python slice bound against a sequence of length `n`
(negative indices count from the end, then both ends are clamped). -/
def pyBound (n : Nat) (i : Int) : Nat :=
  if i < 0 then ((n : Int) + i).toNat else min i.toNat n

/-- Python `s[a:b]` string slicing. -/
def pySlice (s : String) (a b : Int) : String :=
  let cs := s.toList
  let lo := pyBound cs.length a
  let hi := pyBound cs.length b
  String.mk ((cs.drop lo).take (hi - lo))

/-- Python `s.rfind(c, 0, endB)` for a one-character needle: highest
index of `c` strictly below the resolved end bound, or `-1`. -/
def pyRfindChar (s : String) (c : Char) (endB : Int) : Int :=
  let cs := s.toList
  let hi := pyBound cs.length endB
  match ((cs.take hi).reverse).findIdx? (fun d => d == c) with
  | none => -1
  | some k => ((hi - 1 - k : Nat) : Int)

/-- Embedding of `get_source_location`
(src/core/sourcemap.py:98-115, identical in the legacy script): returns
`(None, None)` only when the offset is at or past the end of the
content; there is no check for a negative offset, which instead flows
into Python's negative slice semantics. -/
def get_source_location (byte_offset : Int) (source_content : String) :
    Option Int × Option Int :=
  if (source_content.toList.length : Int) ≤ byte_offset then (none, none)
  else
    let line_num : Int :=
      ((pySlice source_content 0 byte_offset).toList.count '\n') + 1
    let ls := pyRfindChar source_content '\n' byte_offset
    let line_start : Int := if ls = -1 then 0 else ls + 1
    let column : Int := byte_offset - line_start + 1
    (some line_num, some column)

/-- Embedding of `extract_source_snippet` (src/core/sourcemap.py:118-124):
`content[start : min(start+length, len(content))]`, or `""` when the
start is at or past the end. -/
def extract_source_snippet (source_content : String)
    (start_offset length : Int) : String :=
  if (source_content.toList.length : Int) ≤ start_offset then ""
  else
    pySlice source_content start_offset
      (min (start_offset + length) (source_content.toList.length : Int))

/-- One file of the `sources` table consumed by `enhance_trace_entry`
(`load_source_files`, src/core/sourcemap.py:75-95, also stores a
precomputed `lines` list that the annotator never reads; omitted). -/
structure SrcFile where
  path : String
  content : String
deriving DecidableEq

/-- The `source` sub-record attached by `enhance_trace_entry`
(src/core/sourcemap.py:155-163).  `line`/`column` are optional because
`get_source_location` can return `(None, None)`, which the annotator
attaches as-is. -/
structure SourceRec where
  file : String
  line : Option Int
  column : Option Int
  snippet : String
  bytecode_offset : Int
  length : Int
  jump : String
deriving DecidableEq

/-- A trace entry: an opaque record of which only the optional integer
`pc` field and the optional `source` sub-record are interpreted; every
other field is carried verbatim in `extra`. -/
structure TraceEntry where
  pc? : Option Int
  source? : Option SourceRec
  extra : List (String × String)
deriving DecidableEq

/-- Python `l[i]` list indexing: negative indices wrap from the end once;
`none` models a raised `IndexError`. -/
def pyIdx {α : Type} (l : List α) (i : Int) : Option α :=
  if 0 ≤ i then l[i.toNat]?
  else
    let j := (l.length : Int) + i
    if 0 ≤ j then l[j.toNat]? else none

/-- Embedding of `enhance_trace_entry` (src/core/sourcemap.py:127-167,
identical in legacy/enhance_trace_with_sourcemap.py:134-174).  The guard
is `pc < len(pc_to_source_map)` over the *decoded source-map list* — not
a membership test in a PC-keyed index — followed by Python list indexing
`pc_to_source_map[pc]` (negative `pc` wraps; `pc < -len` raises
`IndexError`).  The `if source_mapping:` truthiness test in the source
is always true (the list holds non-empty dicts) and needs no branch. -/
def enhance_trace_entry (trace_entry : TraceEntry)
    (pc_to_source_map : List MapEntry) (sources : List (Int × SrcFile)) :
    Except String TraceEntry :=
  match trace_entry.pc? with
  | none => .ok trace_entry
  | some pc =>
    if pc < (pc_to_source_map.length : Int) then
      match pyIdx pc_to_source_map pc with
      | none => .error "IndexError: list index out of range"
      | some source_mapping =>
        match sources.lookup source_mapping.file with
        | some source_info =>
          let lc := get_source_location source_mapping.start source_info.content
          let snippet := extract_source_snippet source_info.content
            source_mapping.start source_mapping.length
          .ok { trace_entry with
                source? := some ⟨source_info.path, lc.1, lc.2, pyStrip snippet,
                  source_mapping.start, source_mapping.length,
                  source_mapping.jump⟩ }
        | none => .ok trace_entry
    else .ok trace_entry

/-- The `source` sub-record of an annotation result, if any. -/
def annotatedSource : Except String TraceEntry → Option SourceRec
  | .ok t => t.source?
  | .error _ => none

/-- The five-field record returned by `get_source_snippet`
(src/core/sourcemap_parser.py:229-284). -/
structure Snip where
  snippet : String
  line_start : Int
  line_end : Int
  column_start : Int
  column_end : Int
deriving DecidableEq

/-- The all-empty/zero record returned on every boundary condition of
`get_source_snippet`. -/
def emptySnip : Snip := ⟨"", 0, 0, 0, 0⟩

/-- Embedding of `SourcemapParser.get_source_snippet`
(src/core/sourcemap_parser.py:229-284).  The `try/except` wrapper in the
source surrounds pure string operations that cannot raise, so the
`except` arm is dead code.  In the live branch `0 ≤ offset`,
`0 < length` and `offset < len(content)` all hold. -/
def get_source_snippet (source_content : String) (offset length : Int) :
    Snip :=
  if source_content = "" ∨ offset < 0 ∨ length ≤ 0 then emptySnip
  else if (source_content.toList.length : Int) ≤ offset then emptySnip
  else
    let lines_before := splitOnChar '\n' (pySlice source_content 0 offset).toList
    let line_start : Int := lines_before.length
    let column_start : Int :=
      match lines_before.getLast? with
      | some lb => lb.length + 1
      | none => 1
    let end_pos := min (offset + length) (source_content.toList.length : Int)
    let snippet := pySlice source_content offset end_pos
    let lines_in := splitOnChar '\n' snippet.toList
    let line_end : Int := line_start + lines_in.length - 1
    let column_end : Int :=
      if lines_in.length = 1 then column_start + snippet.toList.length
      else (lines_in.getLast?.getD []).length + 1
    ⟨snippet, line_start, line_end, column_start, column_end⟩

/-- Embedding of `SourcemapParser.get_jump_description`
(src/core/sourcemap_parser.py:199-206): dict lookup with default
`'unknown'`. -/
def get_jump_description (jump_type : String) : String :=
  if jump_type = "i" then "jump_into_function"
  else if jump_type = "o" then "jump_out_of_function"
  else if jump_type = "-" then "regular_instruction"
  else "unknown"

/-- One file of the parser-side `sources` table (`load_source_files`,
src/core/sourcemap_parser.py:208-227; its unused `ast` field is
omitted). -/
structure PSrcFile where
  path : String
  id : Int
  content : String
deriving DecidableEq

/-- Python `f"0x{n:02x}"` for a byte value. -/
def hex02 (n : Nat) : String :=
  let s := String.mk (Nat.toDigits 16 n)
  "0x" ++ (if s.length = 1 then "0" ++ s else s)

/-- One value of the `pc_to_source` dict built by
`create_pc_to_source_mapping` (src/core/sourcemap_parser.py:162-195). -/
structure SourceInfo where
  pc : Nat
  instruction_index : Nat
  opcode : String
  jump_type : String
  jump_type_description : String
  source_path : String
  source_id : Int
  snippet : String
  line_start : Int
  line_end : Int
  column_start : Int
  column_end : Int
deriving DecidableEq

/-- Embedding of `SourcemapParser.create_pc_to_source_mapping`
(src/core/sourcemap_parser.py:153-197).  The Python dict keyed by `pc`
is modelled as the list of its values in insertion order (the `pc` keys
of `calculate_pc_mapping` output are pairwise distinct). -/
def create_pc_to_source_mapping (pc_mapping : List PcEntryData)
    (sources : List (Int × PSrcFile)) : List SourceInfo :=
  pc_mapping.map (fun instruction =>
    match sources.lookup instruction.file_index with
    | some source_file =>
      let sn := get_source_snippet source_file.content instruction.offset
        instruction.length
      ⟨instruction.pc, instruction.instruction_index, hex02 instruction.opcode,
        instruction.jump_type, get_jump_description instruction.jump_type,
        source_file.path, source_file.id, sn.snippet, sn.line_start,
        sn.line_end, sn.column_start, sn.column_end⟩
    | none =>
      ⟨instruction.pc, instruction.instruction_index, hex02 instruction.opcode,
        instruction.jump_type, get_jump_description instruction.jump_type,
        "unknown_file_" ++ toString instruction.file_index,
        instruction.file_index, "", 0, 0, 0, 0⟩)

/-- Source-map string shared by the concrete annotation scenarios:
instruction 0 at PC 0, instruction 1 at PC 2, instruction 2 at PC 4 of
bytecode `"6001600202"`. -/
def demoSM : String := "0:2:0:-;2:2:0:-;4:1:0:-"

/-- Decoded form of `demoSM` under `parse_source_map`. -/
def demoMapList : List MapEntry :=
  [⟨0, 2, 0, "-", ""⟩, ⟨2, 2, 0, "-", ""⟩, ⟨4, 1, 0, "-", ""⟩]

/-- One-file source table for the concrete annotation scenarios. -/
def demoSources : List (Int × SrcFile) := [(0, ⟨"A.sol", "abcdef"⟩)]

/-- C1 counterexample: with source map `demoSM` and bytecode
`"6001600202"` the policy-A PC index has keys {0, 2, 4}, so pc = 1 (it
falls inside the first push operand) is not a key — yet the annotator
does not pass the entry `{pc: 1}` through unmodified: it attaches a
source record, because its guard is the list-position test
`pc < len(decoded list)`, not membership in the PC index. -/
theorem c1_unmapped_pc_annotated_cex :
    parse_source_map demoSM = .ok demoMapList ∧
    parse_sourcemap_string demoSM = .ok demoSegs ∧
    (calculate_pc_mapping "6001600202" demoSegs).map (fun e => e.pc) =
      [0, 2, 4] ∧
    (1 : Nat) ∉ (calculate_pc_mapping "6001600202" demoSegs).map
      (fun e => e.pc) ∧
    (⟨some 1, none, [("op", "MUL")]⟩ : TraceEntry).source? = none ∧
    annotatedSource (enhance_trace_entry ⟨some 1, none, [("op", "MUL")]⟩
        demoMapList demoSources) =
      some ⟨"A.sol", some 1, some 3, "cd", 2, 2, "-"⟩ := by
  exact ⟨rfl, rfl, rfl, by decide, rfl, rfl⟩

/-- C1 amended: the annotator passes an entry through unmodified exactly
when it has no `pc` field, or `pc` is at least the length of the decoded
source-map list, or the list element at Python position `pc` names a
file index absent from the source table.  The policy-A PC index is never
consulted, so in-range pc values that are not instruction-start PCs
(including negative pc values, which wrap from the end of the list) are
annotated rather than passed through. -/
theorem c1_passthrough_amended (t : TraceEntry) (m : List MapEntry)
    (s : List (Int × SrcFile)) :
    (t.pc? = none → enhance_trace_entry t m s = .ok t) ∧
    (∀ pc : Int, t.pc? = some pc → (m.length : Int) ≤ pc →
      enhance_trace_entry t m s = .ok t) ∧
    (∀ (pc : Int) (sm : MapEntry), t.pc? = some pc → pyIdx m pc = some sm →
      s.lookup sm.file = none → enhance_trace_entry t m s = .ok t) := by
  refine ⟨?_, ?_, ?_⟩
  · intro h
    simp only [enhance_trace_entry, h]
  · intro pc h hge
    simp only [enhance_trace_entry, h]
    rw [if_neg (by omega)]
  · intro pc sm h hidx hlook
    simp only [enhance_trace_entry, h]
    by_cases hlt : pc < (m.length : Int)
    · rw [if_pos hlt]
      simp only [hidx, hlook]
    · rw [if_neg hlt]

/-- C1 amended, witness: an entry with no `pc` field passes through. -/
theorem c1_passthrough_amended_witness :
    enhance_trace_entry ⟨none, none, []⟩ demoMapList demoSources =
      .ok ⟨none, none, []⟩ :=
  (c1_passthrough_amended ⟨none, none, []⟩ demoMapList demoSources).1 rfl

/-- C8 counterexample: `get_source_location` (the line/column half of
the resolver, src/core/sourcemap.py) does not return the unmapped result
`(None, None)` for a negative start offset: resolving offset `-1` in
content `"ab"` yields line 1, column 0, because the function only checks
`byte_offset >= len(content)`. -/
theorem c8_negative_start_cex :
    get_source_location (-1) "ab" = (some 1, some 0) := by
  rfl

/-- C8 amended: `get_source_snippet` (src/core/sourcemap_parser.py) does
return the empty/zero record whenever the content is empty, the start is
negative, the length is non-positive, or the start is at or past the end
of the content; `get_source_location` (src/core/sourcemap.py) returns
`(None, None)` only for a start at or past the end — a negative start is
not checked there (see the counterexample).  An absent file index is
handled by the callers: the annotator passes the entry through and the
pc-to-source builder emits an `unknown_file` record. -/
theorem c8_resolver_bounds_amended :
    (∀ (content : String) (offset length : Int),
      content = "" ∨ offset < 0 ∨ length ≤ 0 ∨
        (content.toList.length : Int) ≤ offset →
      get_source_snippet content offset length = emptySnip) ∧
    (∀ (offset : Int) (content : String),
      (content.toList.length : Int) ≤ offset →
      get_source_location offset content = (none, none)) := by
  constructor
  · intro content offset length h
    unfold get_source_snippet
    rcases h with h | h | h | h
    · rw [if_pos (Or.inl h)]
    · rw [if_pos (Or.inr (Or.inl h))]
    · rw [if_pos (Or.inr (Or.inr h))]
    · by_cases h0 : content = "" ∨ offset < 0 ∨ length ≤ 0
      · rw [if_pos h0]
      · rw [if_neg h0, if_pos h]
  · intro offset content h
    unfold get_source_location
    rw [if_pos h]

/-- C8 amended, witness at the boundary query `start = len(content)`,
`length = 5` from the claim. -/
theorem c8_resolver_bounds_amended_witness :
    get_source_snippet "ab" 2 5 = emptySnip ∧
    get_source_location 2 "ab" = (none, none) :=
  ⟨c8_resolver_bounds_amended.1 "ab" 2 5 (by decide),
   c8_resolver_bounds_amended.2 2 "ab" (by decide)⟩

/-- C9 counterexample: an entry the annotator does annotate receives the
raw jump-type character (here `"i"`), not one of the three
human-readable labels; the label conversion `get_jump_description`
exists but `enhance_trace_entry` does not call it. -/
theorem c9_raw_jump_cex :
    annotatedSource (enhance_trace_entry ⟨some 0, none, []⟩
        [⟨0, 2, 0, "i", ""⟩] demoSources) =
      some ⟨"A.sol", some 1, some 1, "ab", 0, 2, "i"⟩ ∧
    get_jump_description "i" = "jump_into_function" ∧
    ("i" : String) ≠ "jump_into_function" ∧
    ("i" : String) ≠ "jump_out_of_function" ∧
    ("i" : String) ≠ "regular_instruction" := by
  exact ⟨rfl, rfl, by decide, by decide, by decide⟩

/-- C9 amended: whenever the annotator attaches a source record, its
`jump` field is the raw `jump` string of the source-map entry at list
position `pc`, unconverted; the human-readable mapping is applied only
in the pc-to-source view, whose `jump_type_description` always equals
`get_jump_description` of its raw `jump_type`. -/
theorem c9_jump_label_amended :
    (∀ (t : TraceEntry) (m : List MapEntry) (s : List (Int × SrcFile))
        (pc : Int) (sm : MapEntry) (si : SrcFile),
      t.pc? = some pc → pc < (m.length : Int) → pyIdx m pc = some sm →
      s.lookup sm.file = some si →
      enhance_trace_entry t m s = .ok { t with
        source? := some ⟨si.path,
          (get_source_location sm.start si.content).1,
          (get_source_location sm.start si.content).2,
          pyStrip (extract_source_snippet si.content sm.start sm.length),
          sm.start, sm.length, sm.jump⟩ }) ∧
    (∀ (pcMap : List PcEntryData) (sources : List (Int × PSrcFile))
        (info : SourceInfo),
      info ∈ create_pc_to_source_mapping pcMap sources →
      info.jump_type_description = get_jump_description info.jump_type) := by
  constructor
  · intro t m s pc sm si h hlt hidx hlook
    simp only [enhance_trace_entry, h]
    rw [if_pos hlt]
    simp only [hidx, hlook]
  · intro pcMap sources info hmem
    unfold create_pc_to_source_mapping at hmem
    rcases List.mem_map.mp hmem with ⟨e, _, rfl⟩
    cases hl : sources.lookup e.file_index <;> simp [hl]

/-- C9 amended, witness: concrete annotation attaching the raw `"i"`. -/
theorem c9_jump_label_amended_witness :
    enhance_trace_entry ⟨some 0, none, []⟩ [⟨0, 2, 0, "i", ""⟩] demoSources =
      .ok { (⟨some 0, none, []⟩ : TraceEntry) with
        source? := some ⟨"A.sol",
          (get_source_location 0 "abcdef").1,
          (get_source_location 0 "abcdef").2,
          pyStrip (extract_source_snippet "abcdef" 0 2), 0, 2, "i"⟩ } :=
  c9_jump_label_amended.1 ⟨some 0, none, []⟩ [⟨0, 2, 0, "i", ""⟩] demoSources
    0 ⟨0, 2, 0, "i", ""⟩ ⟨"A.sol", "abcdef"⟩ rfl (by decide) rfl rfl

/-- C10: every pc in the computed mapping whose file index is absent
from the source table still yields an entry in the derived pc-to-source
view, carrying `source_path = "unknown_file_<fileIndex>"`, an empty
snippet and all-zero line/column fields, rather than being dropped or
raising. -/
theorem c10_unknown_file_fallback (pcMap : List PcEntryData)
    (sources : List (Int × PSrcFile)) (e : PcEntryData)
    (hmem : e ∈ pcMap) (hlook : sources.lookup e.file_index = none) :
    ∃ info ∈ create_pc_to_source_mapping pcMap sources,
      info.pc = e.pc ∧
      info.source_path = "unknown_file_" ++ toString e.file_index ∧
      info.snippet = "" ∧ info.line_start = 0 ∧ info.line_end = 0 ∧
      info.column_start = 0 ∧ info.column_end = 0 := by
  refine ⟨_, List.mem_map_of_mem _ hmem, ?_⟩
  simp [hlook]

/-- C10, witness at a one-entry mapping whose file index 5 is absent
from the (empty) source table. -/
theorem c10_unknown_file_fallback_witness :
    ∃ info ∈ create_pc_to_source_mapping [⟨0, 0, 2, 5, "-", 0, 96⟩] [],
      info.pc = (⟨0, 0, 2, 5, "-", 0, 96⟩ : PcEntryData).pc ∧
      info.source_path =
        "unknown_file_" ++ toString (⟨0, 0, 2, 5, "-", 0, 96⟩ : PcEntryData).file_index ∧
      info.snippet = "" ∧ info.line_start = 0 ∧ info.line_end = 0 ∧
      info.column_start = 0 ∧ info.column_end = 0 :=
  c10_unknown_file_fallback [⟨0, 0, 2, 5, "-", 0, 96⟩] []
    ⟨0, 0, 2, 5, "-", 0, 96⟩ (by simp) rfl
